import Mathlib

/-!
Verification of the project-dashboard derivation pipeline of
`NakaSato/construction-internal-app`.

The file shallowly embeds the pure logic of `ProjectsDisplay`
(src/unnamed/part_001) and `OverviewTab` (src/unnamed/part_002):
the filter → sort → paginate pipeline, the derived-metric helpers
(`calculateProgress`, `getPriority`, `getDaysUntilEnd`,
`getCompletionMessage`), the KPI reduction (`projectStats`), and the
pagination view-state transitions.  JS numbers are modelled exactly:
task counts and millisecond timestamps as `Int`, monetary/capacity
values as `ℚ`; `Math.round x` is `⌊x + 1/2⌋` and `Math.floor` on an
integer quotient is `Int.fdiv`.  Locale-aware `localeCompare` is
modelled as code-point lexicographic comparison, and `toLowerCase`
as `Char.toLower` on the character list.
-/

/-- Shallow embedding of the `ProjectDto` fields this component reads.
`startDate` and `estimatedEndDate` carry the millisecond timestamp that
`new Date(s).getTime()` produces for the stored date string; `none`
models a JS `null`/`undefined` field. -/
structure ProjectDto where
  projectId : String
  projectName : Option String
  address : Option String
  clientInfo : Option String
  status : Option String
  totalCapacityKw : Option ℚ
  startDate : Int
  estimatedEndDate : Option Int
  taskCount : Int
  completedTaskCount : Int
  revenueValue : Option ℚ
  ftsValue : Option ℚ
deriving DecidableEq

/-- Embedding of `calculateProgress` (src/unnamed/part_001:145-148),
`taskCount === 0 ? 0 : Math.round((completedTaskCount / taskCount) * 100)`.
Over exact rationals `Math.round (100*c/t) = ⌊100*c/t + 1/2⌋ = ⌊(200*c + t) / (2*t)⌋`,
which `Int.fdiv` (floor division) computes. -/
def calculateProgress (p : ProjectDto) : Int :=
  if p.taskCount = 0 then 0
  else Int.fdiv (200 * p.completedTaskCount + p.taskCount) (2 * p.taskCount)

/-- JS `String.prototype.toLowerCase`, modelled character-wise on the
underlying character list. -/
def jsLower (s : String) : List Char := s.data.map Char.toLower

/-- JS `(field?.toLowerCase() || "")` on an optional string field: a `null`
field (and the empty string) reads as the empty string. -/
def optLowerData : Option String → List Char
  | none => []
  | some s => jsLower s

/-- Helper for JS `String.prototype.includes`: `hay` starts with `needle`. -/
def startsWithCl : List Char → List Char → Bool
  | _, [] => true
  | [], _ :: _ => false
  | a :: as, b :: bs => a == b && startsWithCl as bs

/-- JS `hay.includes(needle)`: `needle` occurs contiguously in `hay`. -/
def includesCl : List Char → List Char → Bool
  | [], needle => startsWithCl [] needle
  | a :: t, needle => startsWithCl (a :: t) needle || includesCl t needle

/-- Embedding of the `matchesSearch` condition of `filteredProjects`
(src/unnamed/part_001:41-50): the lowercased search term must occur in the
lowercased name, address, or client-info field (null fields read as `""`). -/
def matchesSearch (p : ProjectDto) (searchTerm : String) : Bool :=
  includesCl (optLowerData p.projectName) (jsLower searchTerm) ||
  includesCl (optLowerData p.address) (jsLower searchTerm) ||
  includesCl (optLowerData p.clientInfo) (jsLower searchTerm)

/-- Embedding of the `matchesStatus` condition of `filteredProjects`
(src/unnamed/part_001:52-53): `statusFilter === "all" || project.status === statusFilter`
(a `null` status never equals a string filter). -/
def matchesStatus (p : ProjectDto) (statusFilter : String) : Bool :=
  statusFilter == "all" || p.status == some statusFilter

/-- Embedding of `filteredProjects` (src/unnamed/part_001:40-56). -/
def filteredProjects (projects : List ProjectDto) (searchTerm statusFilter : String) :
    List ProjectDto :=
  projects.filter (fun p => matchesSearch p searchTerm && matchesStatus p statusFilter)

theorem startsWithCl_nil (hay : List Char) : startsWithCl hay [] = true := by
  cases hay <;> rfl

theorem includesCl_nil (hay : List Char) : includesCl hay [] = true := by
  cases hay <;> simp [includesCl, startsWithCl_nil]

/-- Substring occurrence exactly as the specification words it:
`needle` occurs contiguously inside `hay`. -/
def OccursIn (needle hay : List Char) : Prop :=
  ∃ pre post, hay = pre ++ needle ++ post

theorem startsWithCl_iff (needle hay : List Char) :
    startsWithCl hay needle = true ↔ ∃ rest, hay = needle ++ rest := by
  induction needle generalizing hay with
  | nil => simp [startsWithCl_nil]
  | cons b bs ih =>
    cases hay with
    | nil => simp [startsWithCl]
    | cons a t =>
      simp only [startsWithCl, Bool.and_eq_true, beq_iff_eq, ih, List.cons_append,
        List.cons.injEq]
      constructor
      · rintro ⟨rfl, rest, rfl⟩; exact ⟨rest, rfl, rfl⟩
      · rintro ⟨rest, rfl, rfl⟩; exact ⟨rfl, rest, rfl⟩

theorem includesCl_iff (needle hay : List Char) :
    includesCl hay needle = true ↔ OccursIn needle hay := by
  induction hay with
  | nil =>
    simp only [includesCl, startsWithCl_iff, OccursIn]
    constructor
    · rintro ⟨rest, h⟩
      exact ⟨[], rest, by simpa using h⟩
    · rintro ⟨pre, post, h⟩
      rcases List.append_eq_nil.mp h.symm with ⟨h1, h2⟩
      rcases List.append_eq_nil.mp h1 with ⟨rfl, rfl⟩
      exact ⟨[], by simp⟩
  | cons a t ih =>
    simp only [includesCl, Bool.or_eq_true, startsWithCl_iff, ih, OccursIn]
    constructor
    · rintro (⟨rest, h⟩ | ⟨pre, post, h⟩)
      · exact ⟨[], rest, by simpa using h⟩
      · exact ⟨a :: pre, post, by simp [h]⟩
    · rintro ⟨pre, post, h⟩
      cases pre with
      | nil => exact Or.inl ⟨post, by simpa using h⟩
      | cons a' pre' =>
        simp only [List.cons_append, List.cons.injEq] at h
        exact Or.inr ⟨pre', post, h.2⟩

/-- Modelled from the claim wording: a record matches when the lowercased
search term occurs in its (lowercased) name, address, or client-info field —
null fields treated as the empty string — and the status filter is `"all"`
or equals the record's status exactly (case-sensitive). -/
def SpecFilterMatch (searchTerm statusFilter : String) (p : ProjectDto) : Prop :=
  (OccursIn (jsLower searchTerm) (optLowerData p.projectName) ∨
   OccursIn (jsLower searchTerm) (optLowerData p.address) ∨
   OccursIn (jsLower searchTerm) (optLowerData p.clientInfo)) ∧
  (statusFilter = "all" ∨ p.status = some statusFilter)

theorem specFilterMatch_iff (s f : String) (p : ProjectDto) :
    SpecFilterMatch s f p ↔ (matchesSearch p s && matchesStatus p f) = true := by
  simp [SpecFilterMatch, matchesSearch, matchesStatus, includesCl_iff, or_assoc]

instance (s f : String) (p : ProjectDto) : Decidable (SpecFilterMatch s f p) :=
  decidable_of_iff _ (specFilterMatch_iff s f p).symm

/-- Claim C3: `filteredProjects` keeps exactly the records where the
case-insensitive search term occurs in the name, address, or client-info
field (any one suffices, null fields read as `""`) and the status filter is
`"all"` or equals the status exactly — i.e. it is the `List.filter` of the
specification predicate. -/
theorem claim_C3_filter (ps : List ProjectDto) (s f : String) :
    filteredProjects ps s f = ps.filter (fun p => decide (SpecFilterMatch s f p)) := by
  unfold filteredProjects
  apply List.filter_congr
  intro p _
  cases hP : decide (SpecFilterMatch s f p) with
  | false =>
    have h : ¬ SpecFilterMatch s f p := of_decide_eq_false hP
    rw [specFilterMatch_iff] at h
    simpa using h
  | true =>
    have h : SpecFilterMatch s f p := of_decide_eq_true hP
    rw [specFilterMatch_iff] at h
    exact h

/-- Claim C10: filtering with the empty search term and status filter
`"all"` is the identity on the record list, null fields included. -/
theorem claim_C10_empty_filter_identity (ps : List ProjectDto) :
    filteredProjects ps "" "all" = ps := by
  unfold filteredProjects
  apply List.filter_eq_self.mpr
  intro p _
  have hterm : jsLower "" = [] := rfl
  simp [matchesSearch, matchesStatus, hterm, includesCl_nil]

/-- Concrete record used to instantiate claims at specific inputs; fields are
overridden per use. -/
def baseProject : ProjectDto :=
  { projectId := "p-1"
    projectName := some "Alpha"
    address := some "123 Solar Way"
    clientInfo := some "Acme"
    status := some "Planning"
    totalCapacityKw := some 100
    startDate := 0
    estimatedEndDate := none
    taskCount := 0
    completedTaskCount := 0
    revenueValue := some 0
    ftsValue := some 0 }

/-- Claim C1 as frozen is false on the code: without the data-model
precondition `0 ≤ completed ≤ taskCount`, `calculateProgress` is not bounded
by `[0,100]` — with `taskCount = 1` and `completedTaskCount = 2` it returns
`200`, and with `completedTaskCount = -1` it returns `-100`. -/
theorem claim_C1_counterexample :
    calculateProgress { baseProject with taskCount := 1, completedTaskCount := 2 } = 200 ∧
    ¬ (0 ≤ calculateProgress { baseProject with taskCount := 1, completedTaskCount := 2 } ∧
       calculateProgress { baseProject with taskCount := 1, completedTaskCount := 2 } ≤ 100) ∧
    calculateProgress { baseProject with taskCount := 1, completedTaskCount := -1 } = -100 := by
  decide

/-- Claim C1 (amended): `calculateProgress` is an integer that equals `0`
whenever `taskCount = 0`, for every `completedTaskCount`; and it lies in
`[0, 100]` whenever the data-model precondition
`0 ≤ completedTaskCount ≤ taskCount` holds. -/
theorem claim_C1_progress_bounds (p : ProjectDto) :
    (p.taskCount = 0 → calculateProgress p = 0) ∧
    (0 ≤ p.completedTaskCount → p.completedTaskCount ≤ p.taskCount →
      0 ≤ calculateProgress p ∧ calculateProgress p ≤ 100) := by
  constructor
  · intro h
    simp [calculateProgress, h]
  · intro hc hct
    by_cases h : p.taskCount = 0
    · simp [calculateProgress, h]
    · have ht : 1 ≤ p.taskCount := by omega
      rw [calculateProgress, if_neg h,
        Int.fdiv_eq_ediv _ (by omega : (0:Int) ≤ 2 * p.taskCount)]
      refine ⟨Int.ediv_nonneg (by omega) (by omega), ?_⟩
      have hlt : (200 * p.completedTaskCount + p.taskCount) / (2 * p.taskCount) < 101 :=
        (Int.ediv_lt_iff_lt_mul (by omega : (0:Int) < 2 * p.taskCount)).mpr (by nlinarith)
      omega

/-- Witness for C1 (amended) at `taskCount = 10`, `completedTaskCount = 3`. -/
theorem claim_C1_progress_bounds_witness :
    ((0:Int) ≤ 3 ∧ (3:Int) ≤ 10) ∧
    (0 ≤ calculateProgress { baseProject with taskCount := 10, completedTaskCount := 3 } ∧
     calculateProgress { baseProject with taskCount := 10, completedTaskCount := 3 } ≤ 100) ∧
    calculateProgress { baseProject with taskCount := 0, completedTaskCount := 7 } = 0 :=
  ⟨⟨by decide, by decide⟩,
   (claim_C1_progress_bounds { baseProject with taskCount := 10, completedTaskCount := 3 }).2
     (by decide) (by decide),
   (claim_C1_progress_bounds { baseProject with taskCount := 0, completedTaskCount := 7 }).1 rfl⟩

/-- Sign-valued code-point lexicographic comparison of character lists,
modelling the sign behaviour of JS `String.prototype.localeCompare`
(locale-aware collation abstracted as code-point order). -/
def lexCmp : List Char → List Char → Int
  | [], [] => 0
  | [], _ :: _ => -1
  | _ :: _, [] => 1
  | a :: as, b :: bs => if a < b then -1 else if b < a then 1 else lexCmp as bs

theorem lexCmp_nil_nonpos (y : List Char) : lexCmp [] y ≤ 0 := by
  cases y <;> simp [lexCmp]

theorem lexCmp_swap (x y : List Char) : lexCmp y x = - lexCmp x y := by
  induction x generalizing y with
  | nil => cases y <;> simp [lexCmp]
  | cons a as ih =>
    cases y with
    | nil => simp [lexCmp]
    | cons b bs =>
      simp only [lexCmp]
      rcases lt_trichotomy a b with h | h | h
      · rw [if_neg (lt_asymm h), if_pos h, if_pos h]; decide
      · subst h
        rw [if_neg (lt_irrefl a), if_neg (lt_irrefl a), if_neg (lt_irrefl a),
          if_neg (lt_irrefl a)]
        exact ih bs
      · rw [if_pos h, if_neg (lt_asymm h), if_pos h]

theorem lexCmp_trans : ∀ {x y z : List Char},
    lexCmp x y ≤ 0 → lexCmp y z ≤ 0 → lexCmp x z ≤ 0
  | [], _, z, _, _ => lexCmp_nil_nonpos z
  | a :: as, [], _, h1, _ => by
    rw [show lexCmp (a :: as) [] = 1 from rfl] at h1; omega
  | _ :: _, _ :: _, [], _, h2 => by
    rw [show lexCmp (_ :: _) [] = 1 from rfl] at h2; omega
  | a :: as, b :: bs, c :: cs, h1, h2 => by
    simp only [lexCmp] at h1 h2 ⊢
    rcases lt_trichotomy a b with hab | hab | hab
    · rcases lt_trichotomy b c with hbc | hbc | hbc
      · rw [if_pos (lt_trans hab hbc)]; omega
      · subst hbc; rw [if_pos hab]; omega
      · rw [if_neg (lt_asymm hbc), if_pos hbc] at h2; omega
    · subst hab
      rw [if_neg (lt_irrefl a), if_neg (lt_irrefl a)] at h1
      rcases lt_trichotomy a c with hac | hac | hac
      · rw [if_pos hac]; omega
      · subst hac
        rw [if_neg (lt_irrefl a), if_neg (lt_irrefl a)] at h2 ⊢
        exact lexCmp_trans h1 h2
      · rw [if_neg (lt_asymm hac), if_pos hac] at h2; omega
    · rw [if_neg (lt_asymm hab), if_pos hab] at h1; omega

/-- JS `(p.projectName || "")` as a character list (for the name comparator). -/
def nameData (p : ProjectDto) : List Char := (p.projectName.getD "").data

/-- JS `(p.status || "")` as a character list (for the status comparator). -/
def statusData (p : ProjectDto) : List Char := (p.status.getD "").data

/-- JS `(p.totalCapacityKw || 0)`: missing capacity treated as 0. -/
def capacityD (p : ProjectDto) : ℚ := p.totalCapacityKw.getD 0

/-- Embedding of the sort comparator of `sortedProjects`
(src/unnamed/part_001:59-76); only the returned rational's sign matters to the
JS stable sort.  Unrecognised keys fall through to the `default: return 0`. -/
def sortComparator (sortBy : String) (a b : ProjectDto) : ℚ :=
  if sortBy = "name" then (lexCmp (nameData a) (nameData b) : ℚ)
  else if sortBy = "status" then (lexCmp (statusData a) (statusData b) : ℚ)
  else if sortBy = "capacity" then capacityD b - capacityD a
  else if sortBy = "startDate" then (a.startDate : ℚ) - (b.startDate : ℚ)
  else if sortBy = "progress" then (calculateProgress b : ℚ) - (calculateProgress a : ℚ)
  else 0

/-- The non-strict order induced by the comparator: `a` may precede `b`. -/
def sortLe (sortBy : String) (a b : ProjectDto) : Bool :=
  decide (sortComparator sortBy a b ≤ 0)

/-- Embedding of `sortedProjects` (src/unnamed/part_001:59): ES2019
`Array.prototype.sort` is a stable comparator-driven sort, modelled by
`List.mergeSort` over `sortLe`. -/
def sortedProjects (sortBy : String) (l : List ProjectDto) : List ProjectDto :=
  l.mergeSort (sortLe sortBy)

theorem sortComparator_swap (k : String) (a b : ProjectDto) :
    sortComparator k b a = - sortComparator k a b := by
  unfold sortComparator
  split_ifs
  · rw [lexCmp_swap (nameData a) (nameData b)]; push_cast; ring
  · rw [lexCmp_swap (statusData a) (statusData b)]; push_cast; ring
  · ring
  · ring
  · ring
  · ring

theorem sortLe_total (k : String) : ∀ (a b : ProjectDto), sortLe k a b || sortLe k b a := by
  intro a b
  simp only [sortLe, Bool.or_eq_true, decide_eq_true_eq]
  rcases le_total (sortComparator k a b) 0 with h | h
  · exact Or.inl h
  · refine Or.inr ?_
    rw [sortComparator_swap]
    linarith

theorem sortLe_trans (k : String) :
    ∀ (a b c : ProjectDto), sortLe k a b → sortLe k b c → sortLe k a c := by
  intro a b c h1 h2
  simp only [sortLe, decide_eq_true_eq] at h1 h2 ⊢
  unfold sortComparator at h1 h2 ⊢
  split_ifs at h1 h2 ⊢
  · have h1' : lexCmp (nameData a) (nameData b) ≤ 0 := by exact_mod_cast h1
    have h2' : lexCmp (nameData b) (nameData c) ≤ 0 := by exact_mod_cast h2
    exact_mod_cast lexCmp_trans h1' h2'
  · have h1' : lexCmp (statusData a) (statusData b) ≤ 0 := by exact_mod_cast h1
    have h2' : lexCmp (statusData b) (statusData c) ≤ 0 := by exact_mod_cast h2
    exact_mod_cast lexCmp_trans h1' h2'
  · linarith
  · linarith
  · linarith
  · linarith

theorem sortedProjects_length (k : String) (l : List ProjectDto) :
    (sortedProjects k l).length = l.length :=
  List.length_mergeSort l

/-- Claim C4: for every filtered list and chosen sort key, `sortedProjects`
is a permutation of its input ordered as the key dictates — name/status
ascending lexicographic with null as `""`, capacity descending with missing
as 0, startDate ascending, progress descending — and the sort is stable:
a comparator-tied pair appearing in input order stays in that order. -/
theorem claim_C4_sorting (k : String) (l : List ProjectDto) :
    (sortedProjects k l).Perm l ∧
    (k = "name" →
      (sortedProjects k l).Pairwise (fun a b => lexCmp (nameData a) (nameData b) ≤ 0)) ∧
    (k = "status" →
      (sortedProjects k l).Pairwise (fun a b => lexCmp (statusData a) (statusData b) ≤ 0)) ∧
    (k = "capacity" →
      (sortedProjects k l).Pairwise (fun a b => capacityD b ≤ capacityD a)) ∧
    (k = "startDate" →
      (sortedProjects k l).Pairwise (fun a b => a.startDate ≤ b.startDate)) ∧
    (k = "progress" →
      (sortedProjects k l).Pairwise (fun a b => calculateProgress b ≤ calculateProgress a)) ∧
    (∀ a b : ProjectDto, sortComparator k a b = 0 →
      List.Sublist [a, b] l → List.Sublist [a, b] (sortedProjects k l)) := by
  have hsorted : (sortedProjects k l).Pairwise (fun a b => sortLe k a b = true) :=
    List.sorted_mergeSort (sortLe_trans k) (sortLe_total k) l
  have key : ∀ a b : ProjectDto, sortLe k a b = true → sortComparator k a b ≤ 0 := by
    intro a b h
    simpa [sortLe] using h
  refine ⟨List.mergeSort_perm l (sortLe k), ?_, ?_, ?_, ?_, ?_, ?_⟩
  · rintro rfl
    refine hsorted.imp ?_
    intro a b hab
    have h := key a b hab
    simp [sortComparator] at h
    exact_mod_cast h
  · rintro rfl
    refine hsorted.imp ?_
    intro a b hab
    have h := key a b hab
    simp [sortComparator] at h
    exact_mod_cast h
  · rintro rfl
    refine hsorted.imp ?_
    intro a b hab
    have h := key a b hab
    simp [sortComparator, sub_nonpos] at h
    linarith
  · rintro rfl
    refine hsorted.imp ?_
    intro a b hab
    have h := key a b hab
    simp [sortComparator, sub_nonpos] at h
    exact_mod_cast h
  · rintro rfl
    refine hsorted.imp ?_
    intro a b hab
    have h := key a b hab
    simp [sortComparator, sub_nonpos] at h
    exact_mod_cast h
  · intro a b h0 hsub
    have hab : sortLe k a b = true := by
      simp only [sortLe, decide_eq_true_eq]
      exact le_of_eq h0
    exact List.pair_sublist_mergeSort (sortLe_trans k) (sortLe_total k) hab hsub

/-- Record pair with tied names, for instantiating the stability clause. -/
def demoTie1 : ProjectDto :=
  { baseProject with projectId := "t1", projectName := some "Same" }

/-- Second record of the tied pair; differs from `demoTie1` outside the key. -/
def demoTie2 : ProjectDto :=
  { baseProject with
    projectId := "t2"
    projectName := some "Same"
    address := some "9 Other St" }

/-- Two-element list with a name tie used as sorting input. -/
def demoPair : List ProjectDto := [demoTie1, demoTie2]

/-- Witness for C4 at sort key "name" on a concrete tied pair. -/
theorem claim_C4_sorting_witness :
    ("name" : String) = "name" ∧
    sortComparator "name" demoTie1 demoTie2 = 0 ∧
    (sortedProjects "name" demoPair).Pairwise
      (fun a b => lexCmp (nameData a) (nameData b) ≤ 0) ∧
    List.Sublist [demoTie1, demoTie2] (sortedProjects "name" demoPair) :=
  ⟨rfl, by decide,
   (claim_C4_sorting "name" demoPair).2.1 rfl,
   (claim_C4_sorting "name" demoPair).2.2.2.2.2.2 demoTie1 demoTie2 (by decide)
     (List.Sublist.refl demoPair)⟩

/-- Embedding of `itemsPerPage` (src/unnamed/part_001:32): fixed constant 9. -/
def itemsPerPage : Nat := 9

/-- Embedding of `totalPages` (src/unnamed/part_001:79),
`Math.ceil(sortedProjects.length / itemsPerPage)` over naturals. -/
def totalPages (n : Nat) : Nat := (n + itemsPerPage - 1) / itemsPerPage

/-- JS `Array.prototype.slice(start, stop)` for non-negative indices:
the elements of positions `[start, stop)`. -/
def jsSlice {α : Type} (l : List α) (start stop : Nat) : List α :=
  (l.drop start).take (stop - start)

/-- Embedding of `paginatedProjects` (src/unnamed/part_001:80-83),
`sortedProjects.slice((currentPage - 1) * itemsPerPage, currentPage * itemsPerPage)`. -/
def paginatedProjects {α : Type} (l : List α) (page : Nat) : List α :=
  jsSlice l ((page - 1) * itemsPerPage) (page * itemsPerPage)

theorem pages_flatten_take {α : Type} (l : List α) (k : Nat) :
    ((List.range k).map (fun i => paginatedProjects l (i + 1))).flatten =
      l.take (k * itemsPerPage) := by
  induction k with
  | zero => simp
  | succ k ih =>
    rw [List.range_succ, List.map_append, List.flatten_append, ih]
    have hpage : paginatedProjects l (k + 1) =
        (l.drop (k * itemsPerPage)).take itemsPerPage := by
      simp only [paginatedProjects, jsSlice, itemsPerPage, Nat.add_sub_cancel]
      congr 1
      omega
    simp only [List.map_cons, List.map_nil, List.flatten_cons, List.flatten_nil,
      List.append_nil]
    rw [hpage]
    rw [show (k + 1) * itemsPerPage = k * itemsPerPage + itemsPerPage by ring,
      List.take_add]

/-- Claim C2: with page size 9, `totalPages` is the ceiling of `n / 9`
(characterised as the least `k` with `n ≤ 9 * k`), every page has at most 9
items, the concatenation of pages `1..totalPages` is the whole list (so the
page lengths sum to `n`), and a 10-element list has 2 pages with exactly one
record on page 2. -/
theorem claim_C2_pagination {α : Type} (l : List α) :
    (l.length ≤ itemsPerPage * totalPages l.length ∧
      ∀ k : Nat, l.length ≤ itemsPerPage * k → totalPages l.length ≤ k) ∧
    (∀ page : Nat, (paginatedProjects l page).length ≤ itemsPerPage) ∧
    ((List.range (totalPages l.length)).map (fun i => paginatedProjects l (i + 1))).flatten
      = l ∧
    (l.length = 10 → totalPages l.length = 2 ∧ (paginatedProjects l 2).length = 1) := by
  refine ⟨⟨?_, ?_⟩, ?_, ?_, ?_⟩
  · simp only [totalPages, itemsPerPage]
    omega
  · intro k hk
    simp only [totalPages, itemsPerPage] at hk ⊢
    omega
  · intro page
    simp only [paginatedProjects, jsSlice, List.length_take, List.length_drop, itemsPerPage]
    omega
  · rw [pages_flatten_take]
    apply List.take_of_length_le
    simp only [totalPages, itemsPerPage]
    omega
  · intro h10
    constructor
    · rw [h10]; rfl
    · simp only [paginatedProjects, jsSlice, List.length_take, List.length_drop, h10,
        itemsPerPage]
      omega

/-- Witness for C2 on the concrete 10-element list `List.range 10`. -/
theorem claim_C2_pagination_witness :
    (List.range 10).length = 10 ∧
    totalPages (List.range 10).length = 2 ∧
    (paginatedProjects (List.range 10) 2).length = 1 ∧
    (10:Nat) ≤ itemsPerPage * 2 ∧ totalPages (List.range 10).length ≤ 2 :=
  ⟨by simp,
   ((claim_C2_pagination (List.range 10)).2.2.2 (by simp)).1,
   ((claim_C2_pagination (List.range 10)).2.2.2 (by simp)).2,
   by decide,
   (claim_C2_pagination (List.range 10)).1.2 2 (by simp [itemsPerPage])⟩

/-- Embedding of `getPriority` (src/unnamed/part_001:122-128): the ordered
rule table over status and progress. -/
def getPriority (p : ProjectDto) : String :=
  if p.status = some "OnHold" then "High"
  else if p.status = some "InProgress" ∧ calculateProgress p < 30 then "Medium"
  else if p.status = some "Planning" then "Low"
  else "Normal"

/-- Claim C5: `getPriority` is High on OnHold, Medium on InProgress with
progress strictly below 30, Low on Planning, Normal otherwise; the `< 30`
boundary is strict, so InProgress with 3 of 10 tasks (progress exactly 30)
is Normal, not Medium. -/
theorem claim_C5_priority (p : ProjectDto) :
    (p.status = some "OnHold" → getPriority p = "High") ∧
    (p.status = some "InProgress" → calculateProgress p < 30 → getPriority p = "Medium") ∧
    (p.status = some "Planning" → getPriority p = "Low") ∧
    (p.status ≠ some "OnHold" → p.status ≠ some "Planning" →
      (p.status = some "InProgress" → 30 ≤ calculateProgress p) →
      getPriority p = "Normal") ∧
    (p.status = some "InProgress" → p.taskCount = 10 → p.completedTaskCount = 3 →
      calculateProgress p = 30 ∧ getPriority p = "Normal") := by
  refine ⟨?_, ?_, ?_, ?_, ?_⟩
  · intro h
    simp [getPriority, h]
  · intro h hlt
    simp [getPriority, h, hlt]
  · intro h
    simp [getPriority, h]
  · intro h1 h2 h3
    have hcond : ¬ (p.status = some "InProgress" ∧ calculateProgress p < 30) := by
      rintro ⟨hip, hlt⟩
      exact absurd hlt (not_lt.2 (h3 hip))
    simp [getPriority, h1, h2, hcond]
  · intro h h10 h3
    have hprog : calculateProgress p = 30 := by
      simp only [calculateProgress, h10, h3]
      decide
    have hcond : ¬ (p.status = some "InProgress" ∧ calculateProgress p < 30) := by
      rintro ⟨_, hlt⟩
      omega
    exact ⟨hprog, by simp [getPriority, h, hcond]; omega⟩

/-- The spec's "Beta" scenario record: InProgress, 3 of 10 tasks done. -/
def betaProject : ProjectDto :=
  { baseProject with
    projectName := some "Beta"
    status := some "InProgress"
    taskCount := 10
    completedTaskCount := 3 }

/-- Witness for C5 at the boundary record (progress exactly 30). -/
theorem claim_C5_priority_witness :
    betaProject.status = some "InProgress" ∧
    calculateProgress betaProject = 30 ∧
    getPriority betaProject = "Normal" :=
  ⟨rfl,
   ((claim_C5_priority betaProject).2.2.2.2 rfl rfl rfl).1,
   ((claim_C5_priority betaProject).2.2.2.2 rfl rfl rfl).2⟩

/-- Embedding of `getDaysUntilEnd` (src/unnamed/part_001:170-178):
`Math.floor((end.getTime() - now.getTime()) / 86400000)` on millisecond
timestamps, `none` when there is no end date. -/
def getDaysUntilEnd (endDate : Option Int) (now : Int) : Option Int :=
  match endDate with
  | none => none
  | some e => some (Int.fdiv (e - now) 86400000)

/-- Embedding of `getCompletionMessage` (src/unnamed/part_001:181-192). -/
def getCompletionMessage (p : ProjectDto) (now : Int) : String :=
  if calculateProgress p = 100 then "✅ Completed"
  else
    match getDaysUntilEnd p.estimatedEndDate now with
    | some d =>
      if d < 0 then "⚠️ Overdue"
      else if d < 7 then "⏰ Due in " ++ toString d ++ " days"
      else if d < 30 then "📅 Due in " ++ toString d ++ " days"
      else "🚧 " ++ toString (calculateProgress p) ++ "% complete"
    | none => "🚧 " ++ toString (calculateProgress p) ++ "% complete"

/-- Claim C6: the completion message is decided in order — progress 100
gives "Completed"; otherwise with an end date, a negative whole-day
difference gives "Overdue", under 7 days the "due soon" day-count message,
under 30 days the "Due in N days" message; in all remaining cases (no end
date, or 30 or more days) the "{progress}% complete" message.
`getDaysUntilEnd` is the floored whole-day difference, null without an end
date. -/
theorem claim_C6_completion (p : ProjectDto) (now : Int) :
    (calculateProgress p = 100 → getCompletionMessage p now = "✅ Completed") ∧
    (calculateProgress p ≠ 100 →
      ∀ d : Int, getDaysUntilEnd p.estimatedEndDate now = some d →
        (d < 0 → getCompletionMessage p now = "⚠️ Overdue") ∧
        (0 ≤ d → d < 7 →
          getCompletionMessage p now = "⏰ Due in " ++ toString d ++ " days") ∧
        (7 ≤ d → d < 30 →
          getCompletionMessage p now = "📅 Due in " ++ toString d ++ " days") ∧
        (30 ≤ d → getCompletionMessage p now =
          "🚧 " ++ toString (calculateProgress p) ++ "% complete")) ∧
    (calculateProgress p ≠ 100 → getDaysUntilEnd p.estimatedEndDate now = none →
      getCompletionMessage p now =
        "🚧 " ++ toString (calculateProgress p) ++ "% complete") ∧
    getDaysUntilEnd none now = none ∧
    (∀ e : Int, getDaysUntilEnd (some e) now = some (Int.fdiv (e - now) 86400000)) := by
  refine ⟨?_, ?_, ?_, rfl, fun _ => rfl⟩
  · intro h
    simp [getCompletionMessage, h]
  · intro h d hd
    refine ⟨?_, ?_, ?_, ?_⟩
    · intro hd0
      simp [getCompletionMessage, h, hd, hd0]
    · intro h0 h7
      have hn0 : ¬ d < 0 := not_lt.mpr h0
      simp [getCompletionMessage, h, hd, hn0, h7]
    · intro h7 h30
      have hn0 : ¬ d < 0 := by omega
      have hn7 : ¬ d < 7 := by omega
      simp [getCompletionMessage, h, hd, hn0, hn7, h30]
    · intro h30
      have hn0 : ¬ d < 0 := by omega
      have hn7 : ¬ d < 7 := by omega
      have hn30 : ¬ d < 30 := by omega
      simp [getCompletionMessage, h, hd, hn0, hn7, hn30]
  · intro h hnone
    simp [getCompletionMessage, h, hnone]

/-- Record due in exactly 3 whole days from time 0, progress 0. -/
def dueSoonProject : ProjectDto :=
  { baseProject with estimatedEndDate := some (3 * 86400000) }

/-- Witness for C6 on the due-soon branch at a concrete record and time. -/
theorem claim_C6_completion_witness :
    calculateProgress dueSoonProject ≠ 100 ∧
    getDaysUntilEnd dueSoonProject.estimatedEndDate 0 = some 3 ∧
    ((0:Int) ≤ 3 ∧ (3:Int) < 7) ∧
    getCompletionMessage dueSoonProject 0 = "⏰ Due in " ++ toString (3:Int) ++ " days" :=
  ⟨by decide, by decide, ⟨by decide, by decide⟩,
   ((claim_C6_completion dueSoonProject 0).2.1 (by decide) 3 (by decide)).2.1
     (by decide) (by decide)⟩

/-- Embedding of `projectStats.totalBudget` (src/unnamed/part_001:1097):
the reduce summing `revenueValue || 0` (budget proxy). -/
def totalBudget (ps : List ProjectDto) : ℚ :=
  ps.foldl (fun s p => s + p.revenueValue.getD 0) 0

/-- Embedding of `projectStats.totalSpent` (src/unnamed/part_001:1098):
the reduce summing `ftsValue || 0` (spent proxy). -/
def totalSpent (ps : List ProjectDto) : ℚ :=
  ps.foldl (fun s p => s + p.ftsValue.getD 0) 0

/-- Embedding of `projectStats.totalCapacity` (src/unnamed/part_001:1099-1101). -/
def totalCapacity (ps : List ProjectDto) : ℚ :=
  ps.foldl (fun s p => s + p.totalCapacityKw.getD 0) 0

/-- Embedding of `projectStats.budgetUtilization`
(src/unnamed/part_001:1102-1110): `(spent / Math.max(budget, 1)) * 100` for a
non-empty list, 0 for the empty list. -/
def budgetUtilization (ps : List ProjectDto) : ℚ :=
  if ps.length > 0 then (totalSpent ps / max (totalBudget ps) 1) * 100 else 0

/-- Claim C8: the budget-utilization KPI divides by a denominator floored at
1 (so it is at least 1 and never zero), equals the claimed formula for every
list, and on the empty list all KPI totals and the utilisation are exactly 0. -/
theorem claim_C8_kpi (ps : List ProjectDto) :
    (1 : ℚ) ≤ max (totalBudget ps) 1 ∧
    budgetUtilization ps = (totalSpent ps / max (totalBudget ps) 1) * 100 ∧
    totalBudget [] = 0 ∧ totalSpent [] = 0 ∧ totalCapacity [] = 0 ∧
    budgetUtilization [] = 0 := by
  refine ⟨le_max_right _ _, ?_, rfl, rfl, rfl, rfl⟩
  by_cases h : ps.length > 0
  · rw [budgetUtilization, if_pos h]
  · rw [budgetUtilization, if_neg h]
    have h0 : ps.length = 0 := by omega
    rcases List.length_eq_zero.mp h0 with rfl
    show (0 : ℚ) = (totalSpent [] / max (totalBudget []) 1) * 100
    norm_num [totalSpent, totalBudget]

/-- Query parameters of `projectsApi.getAllProjects`
(src/unnamed/part_002:53-57). -/
structure ProjectsQuery where
  pageNumber : Nat
  pageSize : Nat
  status : String
deriving DecidableEq

/-- Response shape of the projects API: items plus a server-side total count. -/
structure ProjectsResponse where
  items : List ProjectDto
  totalCount : Nat

/-- The fixed query issued by the `fetchCount` effect
(src/unnamed/part_002:53-57): page 1, page size 1, active status list. -/
def activeCountQuery : ProjectsQuery :=
  { pageNumber := 1, pageSize := 1, status := "InProgress,Planning,OnHold" }

/-- Embedding of the state outcome of the `fetchCount` effect
(src/unnamed/part_002:50-65): on success the displayed active count is the
response's `totalCount`; on failure (the error is logged to the console,
with no user-visible error state) the count falls back to the length of the
already-loaded project list. -/
def fetchCountResult (res : Except String ProjectsResponse)
    (projects : List ProjectDto) : Nat :=
  match res with
  | Except.ok r => r.totalCount
  | Except.error _ => projects.length

/-- Claim C9: a failed active-count fetch falls back to the loaded list's
length; a successful fetch displays the query's `totalCount`, independent of
the loaded list; and the query filters on the status list
"InProgress,Planning,OnHold" with page number 1 and page size 1. -/
theorem claim_C9_active_count :
    (∀ (e : String) (ps : List ProjectDto),
      fetchCountResult (Except.error e) ps = ps.length) ∧
    (∀ (r : ProjectsResponse) (ps ps' : List ProjectDto),
      fetchCountResult (Except.ok r) ps = r.totalCount ∧
      fetchCountResult (Except.ok r) ps = fetchCountResult (Except.ok r) ps') ∧
    activeCountQuery.status = "InProgress,Planning,OnHold" ∧
    activeCountQuery.pageNumber = 1 ∧ activeCountQuery.pageSize = 1 :=
  ⟨fun _ _ => rfl, fun _ _ _ => ⟨rfl, rfl⟩, rfl, rfl, rfl⟩

/-- Grid-or-list layout selector of `ProjectsDisplay`. -/
inductive ViewMode
  | grid
  | list
deriving DecidableEq

/-- The pagination-relevant view state of `ProjectsDisplay`
(src/unnamed/part_001:23-32) together with the `projects` prop. -/
structure ViewState where
  searchTerm : String
  statusFilter : String
  sortBy : String
  viewMode : ViewMode
  currentPage : Nat
  projects : List ProjectDto
deriving DecidableEq

/-- The sorted, filtered list the component derives from a state. -/
def derivedSorted (st : ViewState) : List ProjectDto :=
  sortedProjects st.sortBy (filteredProjects st.projects st.searchTerm st.statusFilter)

/-- `totalPages` of the state's derived list (src/unnamed/part_001:79). -/
def derivedTotalPages (st : ViewState) : Nat :=
  totalPages (derivedSorted st).length

/-- The pagination controls render only when the sorted list is longer than
one page (src/unnamed/part_001:657). -/
def paginationShown (st : ViewState) : Bool :=
  decide (itemsPerPage < (derivedSorted st).length)

/-- UI events that touch the pagination-relevant view state. -/
inductive UiEvent
  | setSearch (s : String)
  | setStatus (f : String)
  | setViewMode (m : ViewMode)
  | setSort (k : String)
  | prevPage
  | nextPage
  | pageButton (i : Nat)
  | setProjects (ps : List ProjectDto)

/-- Embedding of the state transitions of `ProjectsDisplay`: the page-reset
effect (src/unnamed/part_001:35-37) runs after a search-term, status-filter,
or view-mode change; `Previous`/`Next` are the clamped handlers
(src/unnamed/part_001:668,690), reachable only while the controls are
rendered and the button is enabled; a page button exists exactly for
`1..totalPages` (src/unnamed/part_001:677-688); a sort-key change or a
`projects`-prop change leaves the page untouched. -/
def step (st : ViewState) : UiEvent → ViewState
  | UiEvent.setSearch s => { st with searchTerm := s, currentPage := 1 }
  | UiEvent.setStatus f => { st with statusFilter := f, currentPage := 1 }
  | UiEvent.setViewMode m => { st with viewMode := m, currentPage := 1 }
  | UiEvent.setSort k => { st with sortBy := k }
  | UiEvent.prevPage =>
      if paginationShown st = true ∧ st.currentPage ≠ 1 then
        { st with currentPage := max (st.currentPage - 1) 1 }
      else st
  | UiEvent.nextPage =>
      if paginationShown st = true ∧ st.currentPage ≠ derivedTotalPages st then
        { st with currentPage := min (st.currentPage + 1) (derivedTotalPages st) }
      else st
  | UiEvent.pageButton i =>
      if paginationShown st = true ∧ 1 ≤ i ∧ i ≤ derivedTotalPages st then
        { st with currentPage := i }
      else st
  | UiEvent.setProjects ps => { st with projects := ps }

/-- The invariant exactly as claim C7 states it: the current page lies in
`[1, totalPages]` of the derived list. -/
def PageInv (st : ViewState) : Prop :=
  1 ≤ st.currentPage ∧ st.currentPage ≤ derivedTotalPages st

instance (st : ViewState) : Decidable (PageInv st) :=
  decidable_of_iff (1 ≤ st.currentPage ∧ st.currentPage ≤ derivedTotalPages st) Iff.rfl

/-- The invariant the code actually maintains for non-`projects` events:
the page lies in `[1, max totalPages 1]` (on an empty derived list
`totalPages = 0` yet the page is 1). -/
def PageInvM (st : ViewState) : Prop :=
  1 ≤ st.currentPage ∧ st.currentPage ≤ max (derivedTotalPages st) 1

instance (st : ViewState) : Decidable (PageInvM st) :=
  decidable_of_iff (1 ≤ st.currentPage ∧ st.currentPage ≤ max (derivedTotalPages st) 1)
    Iff.rfl

theorem derivedTotalPages_page (st : ViewState) (x : Nat) :
    derivedTotalPages { st with currentPage := x } = derivedTotalPages st := rfl

theorem derivedTotalPages_sortBy (st : ViewState) (k : String) :
    derivedTotalPages { st with sortBy := k } = derivedTotalPages st := by
  simp [derivedTotalPages, derivedSorted, sortedProjects_length]

theorem derivedTotalPages_filtered (st : ViewState) :
    derivedTotalPages st =
      totalPages (filteredProjects st.projects st.searchTerm st.statusFilter).length := by
  simp [derivedTotalPages, derivedSorted, sortedProjects_length]

theorem derivedTotalPages_two_le (st : ViewState) (h : paginationShown st = true) :
    2 ≤ derivedTotalPages st := by
  simp only [paginationShown, itemsPerPage, decide_eq_true_eq] at h
  simp only [derivedTotalPages, totalPages, itemsPerPage]
  omega

/-- Claim C7 (amended): a search-term, status-filter, or view-mode change
resets the page to 1, and every event other than a record-list change
preserves the invariant `1 ≤ page ≤ max totalPages 1` of the newly derived
list (`max · 1` because an empty derived list has `totalPages = 0` while the
page is reset to 1). -/
theorem claim_C7_page_invariant (st : ViewState) (hinv : PageInvM st) :
    (∀ s, (step st (UiEvent.setSearch s)).currentPage = 1) ∧
    (∀ f, (step st (UiEvent.setStatus f)).currentPage = 1) ∧
    (∀ m, (step st (UiEvent.setViewMode m)).currentPage = 1) ∧
    (∀ e : UiEvent, (∀ ps, e ≠ UiEvent.setProjects ps) → PageInvM (step st e)) := by
  refine ⟨fun _ => rfl, fun _ => rfl, fun _ => rfl, ?_⟩
  intro e he
  cases e with
  | setSearch s =>
    refine ⟨Nat.le_refl 1, ?_⟩
    exact Nat.le_max_right _ 1
  | setStatus f =>
    refine ⟨Nat.le_refl 1, ?_⟩
    exact Nat.le_max_right _ 1
  | setViewMode m =>
    refine ⟨Nat.le_refl 1, ?_⟩
    exact Nat.le_max_right _ 1
  | setSort k =>
    have ht := derivedTotalPages_sortBy st k
    simp only [step, PageInvM] at hinv ⊢
    rw [ht]
    exact hinv
  | prevPage =>
    simp only [step]
    split_ifs with hc
    · simp only [PageInvM, derivedTotalPages_page] at hinv ⊢
      omega
    · exact hinv
  | nextPage =>
    simp only [step]
    split_ifs with hc
    · have h2 := derivedTotalPages_two_le st hc.1
      simp only [PageInvM, derivedTotalPages_page] at hinv ⊢
      omega
    · exact hinv
  | pageButton i =>
    simp only [step]
    split_ifs with hc
    · have hc' := hc.2
      simp only [PageInvM, derivedTotalPages_page] at hinv ⊢
      omega
    · exact hinv
  | setProjects ps => exact absurd rfl (he ps)

/-- Ten identical-looking records (distinct ids), one page plus one record. -/
def tenProjects : List ProjectDto :=
  (List.range 10).map (fun i => { baseProject with projectId := toString i })

/-- Five records: the shrunken replacement list. -/
def fiveProjects : List ProjectDto :=
  (List.range 5).map (fun i => { baseProject with projectId := toString i })

/-- A reachable state on page 2 of the ten-record list, satisfying the
claimed invariant. -/
def stTen : ViewState :=
  { searchTerm := ""
    statusFilter := "all"
    sortBy := "name"
    viewMode := ViewMode.grid
    currentPage := 2
    projects := tenProjects }

/-- Claim C7 as frozen is false on the code: from a state satisfying the
invariant (page 2 of 2), a record-list change to 5 records leaves the page
at 2 with `totalPages = 1`, and a search-term change that matches nothing
resets the page to 1 while `totalPages = 0` — in both cases the page is
outside `[1, totalPages]` of the newly derived list. -/
theorem claim_C7_counterexample :
    PageInv stTen ∧
    ¬ PageInv (step stTen (UiEvent.setProjects fiveProjects)) ∧
    ¬ PageInv (step stTen (UiEvent.setSearch "zzz")) := by
  have h1 : derivedTotalPages stTen = 2 := by
    rw [derivedTotalPages_filtered]
    decide
  have h2 : derivedTotalPages (step stTen (UiEvent.setProjects fiveProjects)) = 1 := by
    rw [derivedTotalPages_filtered]
    decide
  have h3 : derivedTotalPages (step stTen (UiEvent.setSearch "zzz")) = 0 := by
    rw [derivedTotalPages_filtered]
    decide
  refine ⟨?_, ?_, ?_⟩
  · simp only [PageInv, h1]
    decide
  · simp only [PageInv, h2]
    decide
  · simp only [PageInv, h3]
    decide

/-- Witness for C7 (amended) at the concrete page-2 state. -/
theorem claim_C7_page_invariant_witness :
    PageInvM stTen ∧
    PageInvM (step stTen UiEvent.nextPage) ∧
    (step stTen (UiEvent.setSearch "x")).currentPage = 1 :=
  ⟨by simp only [PageInvM, derivedTotalPages_filtered]; decide,
   (claim_C7_page_invariant stTen
       (by simp only [PageInvM, derivedTotalPages_filtered]; decide)).2.2.2
     UiEvent.nextPage (fun _ h => UiEvent.noConfusion h),
   (claim_C7_page_invariant stTen
       (by simp only [PageInvM, derivedTotalPages_filtered]; decide)).1 "x"⟩
